import Mathlib

/-!
Verification of the SparkKeep local-first sync core (Local Store, Outbox
Queue, Sync Engine) against its natural-language specification.

The definitions below are a shallow embedding of `src/data/localdb.ts`
(Local Store / Outbox persistence) and the sync engine hook
(`useSyncService`: `processItem`, `flushOutbox`, `syncNow`, the
connectivity / app-state handlers and the retry timer).  SQLite tables
become Lean lists, the module-level mutable sync state becomes an explicit
`EngineState`, the remote Convex mutations become an environment of
`Except`-valued functions, and the time-varying `isOnline` /
`mountedRef.current` flags become Boolean functions of an observation
counter (one observation per suspension point that reads them).
-/

namespace SparkKeep

/-- `OutboxItem.action` from `src/data/types.ts`: the six action kinds the
outbox admits (the sync engine handles only five of them). -/
inductive OutboxAction where
  | createProject
  | createFeature
  | updateIdea
  | updateStatus
  | archiveIdea
  | deleteIdea
deriving DecidableEq, Repr

/-- A row of the `ideas` table (`IdeaRecord` in `src/data/types.ts`).
`type` and `status` are stored as TEXT in SQLite and kept as strings. -/
structure IdeaRecord where
  localId : String
  serverId : Option String
  content : String
  type : String
  parentProjectLocalId : Option String
  parentProjectServerId : Option String
  status : String
  archived : Nat
  createdAt : Nat
  updatedAt : Nat
deriving DecidableEq, Repr

/-- The parsed form of an outbox payload (the source stores it as a JSON
string and parses it with `JSON.parse`; absent JSON fields become `none`). -/
structure Payload where
  localId : Option String
  content : String
  serverId : Option String
  status : Option String
  parentProjectLocalId : Option String
  parentProjectServerId : Option String
deriving DecidableEq, Repr

/-- A row of the `outbox` table (`OutboxItem` in `src/data/types.ts`). -/
structure OutboxItem where
  id : String
  action : OutboxAction
  payload : Payload
  createdAt : Nat
  attemptCount : Nat
  lastError : Option String
deriving DecidableEq, Repr

/-- The durable on-device database: the `ideas` and `outbox` tables. -/
structure DbState where
  ideas : List IdeaRecord
  outbox : List OutboxItem
deriving DecidableEq, Repr

/-- `RETRY_DELAYS` from the sync engine: backoff of 2s, 5s, 10s, 30s. -/
def RETRY_DELAYS : List Nat := [2000, 5000, 10000, 30000]

/-- `MAX_RETRY_ATTEMPTS` from the sync engine. -/
def MAX_RETRY_ATTEMPTS : Nat := 10

/-- `getOutboxItems`: `SELECT ... FROM outbox ORDER BY createdAt ASC`. -/
def getOutboxItems (db : DbState) : List OutboxItem :=
  List.insertionSort (fun a b => a.createdAt ≤ b.createdAt) db.outbox

/-- `removeOutboxByLocalId`:
`DELETE FROM outbox WHERE json_extract(payload, '$.localId') = $localId`.
A SQL comparison with NULL on either side matches no row, so a row is
deleted exactly when both sides are present and equal. -/
def removeOutboxByLocalId (db : DbState) (localId : Option String) : DbState :=
  { db with outbox :=
      db.outbox.filter (fun it =>
        !(localId.isSome && (it.payload.localId == localId))) }

/-- `removeOutboxById`: `DELETE FROM outbox WHERE id = $id`. -/
def removeOutboxById (db : DbState) (id : String) : DbState :=
  { db with outbox := db.outbox.filter (fun it => it.id != id) }

/-- `markIdeaSynced`: `UPDATE ideas SET serverId = $serverId, updatedAt =
$updatedAt WHERE localId = $localId` (a NULL key matches no row). -/
def markIdeaSynced (db : DbState) (localId : Option String) (serverId : String)
    (now : Nat) : DbState :=
  { db with ideas :=
      db.ideas.map (fun r =>
        if some r.localId = localId then
          { r with serverId := some serverId, updatedAt := now }
        else r) }

/-- `getServerIdByLocalId`: `SELECT serverId FROM ideas WHERE localId = ?`
taking the first row; `row?.serverId ?? null`. -/
def getServerIdByLocalId (db : DbState) (localId : Option String) : Option String :=
  match db.ideas.find? (fun r => some r.localId == localId) with
  | some r => r.serverId
  | none => none

/-- `incrementOutboxAttempt`: `UPDATE outbox SET attemptCount = attemptCount
+ 1, lastError = $error WHERE json_extract(payload, '$.localId') = $localId`. -/
def incrementOutboxAttempt (db : DbState) (localId : String)
    (errorMessage : Option String) : DbState :=
  { db with outbox :=
      db.outbox.map (fun it =>
        if it.payload.localId = some localId then
          { it with attemptCount := it.attemptCount + 1, lastError := errorMessage }
        else it) }

/-- One invocation of the Remote Service (the Convex mutations the engine
calls), recorded with the exact arguments the engine passed. -/
inductive RemoteCall where
  | createProject (content : String)
  | createFeature (content : String) (parentProjectId : Option String) (status : String)
  | updateStatus (id : String) (status : Option String)
  | archiveIdea (id : String)
  | deleteIdea (id : String)
deriving DecidableEq, Repr

/-- The action kind a remote call belongs to. -/
def RemoteCall.action : RemoteCall → OutboxAction
  | .createProject _ => .createProject
  | .createFeature _ _ _ => .createFeature
  | .updateStatus _ _ => .updateStatus
  | .archiveIdea _ => .archiveIdea
  | .deleteIdea _ => .deleteIdea

/-- The world the engine runs in: the remote mutation endpoints (each call
either returns a value or raises an error message), the clock, and the
values of the module-level `isOnline` flag and `mountedRef.current` as read
at each suspension point (indexed by an observation counter). -/
structure SyncEnv where
  createProjectR : String → Except String String
  createFeatureR : String → Option String → String → Except String String
  updateStatusR : String → Option String → Except String String
  archiveIdeaR : String → Except String String
  deleteIdeaR : String → Except String String
  now : Nat
  onlineAt : Nat → Bool
  mountedAt : Nat → Bool

/-- JavaScript truthiness of a string value: `null`, `undefined` and the
empty string are falsy (`if (serverId) { ... }` in the source). -/
def jsTruthy : Option String → Option String
  | some s => if s = "" then none else some s
  | none => none

/-- Parent resolution in the `createFeature` branch of `processItem`:
`payload.parentProjectServerId ?? (payload.parentProjectLocalId ?
await getServerIdByLocalId(payload.parentProjectLocalId) : undefined)`. -/
def resolveParentServerId (db : DbState) (payload : Payload) : Option String :=
  match payload.parentProjectServerId with
  | some s => some s
  | none =>
    match payload.parentProjectLocalId with
    | some plid => if plid = "" then none else getServerIdByLocalId db (some plid)
    | none => none

/-- Server-id resolution in the `updateStatus` / `archiveIdea` /
`deleteIdea` branches: `payload.serverId ?? (await
getServerIdByLocalId(payload.localId))`. -/
def resolveServerId (db : DbState) (payload : Payload) : Option String :=
  match payload.serverId with
  | some s => some s
  | none => getServerIdByLocalId db payload.localId

/-- The `catch` block of `processItem`: record the failure via
`incrementOutboxAttempt` when the payload carries a truthy `localId`
(`if (parsed?.localId)` — `null`, `undefined` and `""` are falsy), then,
if the item's `attemptCount` (as read at drain start) has reached
`MAX_RETRY_ATTEMPTS`, remove the entry and report success; otherwise leave
it queued and report failure. -/
def processFailure (db : DbState) (item : OutboxItem) (errMsg : String) :
    DbState × Bool :=
  let db1 :=
    match jsTruthy item.payload.localId with
    | some lid => incrementOutboxAttempt db lid (some errMsg)
    | none => db
  if MAX_RETRY_ATTEMPTS ≤ item.attemptCount then
    (removeOutboxById db1 item.id, true)
  else
    (db1, false)

/-- `processItem`: process a single outbox item.  Returns the updated
database, the remote calls issued (a raised remote call is still recorded:
it was invoked), and the boolean `processItem` resolves with. -/
def processItem (env : SyncEnv) (db : DbState) (item : OutboxItem) :
    DbState × List RemoteCall × Bool :=
  let payload := item.payload
  match item.action with
  | .createProject =>
    match env.createProjectR payload.content with
    | .ok serverId =>
      let db1 := markIdeaSynced db payload.localId serverId env.now
      (removeOutboxByLocalId db1 payload.localId,
       [.createProject payload.content], true)
    | .error e =>
      let (db1, ok) := processFailure db item e
      (db1, [.createProject payload.content], ok)
  | .createFeature =>
    let parentServerId := resolveParentServerId db payload
    let status := payload.status.getD "INBOX"
    match env.createFeatureR payload.content parentServerId status with
    | .ok serverId =>
      let db1 := markIdeaSynced db payload.localId serverId env.now
      (removeOutboxByLocalId db1 payload.localId,
       [.createFeature payload.content parentServerId status], true)
    | .error e =>
      let (db1, ok) := processFailure db item e
      (db1, [.createFeature payload.content parentServerId status], ok)
  | .updateStatus =>
    match jsTruthy (resolveServerId db payload) with
    | some serverId =>
      match env.updateStatusR serverId payload.status with
      | .ok _ => (removeOutboxByLocalId db payload.localId,
                  [.updateStatus serverId payload.status], true)
      | .error e =>
        let (db1, ok) := processFailure db item e
        (db1, [.updateStatus serverId payload.status], ok)
    | none => (removeOutboxById db item.id, [], true)
  | .archiveIdea =>
    match jsTruthy (resolveServerId db payload) with
    | some serverId =>
      match env.archiveIdeaR serverId with
      | .ok _ => (removeOutboxByLocalId db payload.localId,
                  [.archiveIdea serverId], true)
      | .error e =>
        let (db1, ok) := processFailure db item e
        (db1, [.archiveIdea serverId], ok)
    | none => (removeOutboxById db item.id, [], true)
  | .deleteIdea =>
    match jsTruthy (resolveServerId db payload) with
    | some serverId =>
      match env.deleteIdeaR serverId with
      | .ok _ => (removeOutboxByLocalId db payload.localId,
                  [.deleteIdea serverId], true)
      | .error e =>
        let (db1, ok) := processFailure db item e
        (db1, [.deleteIdea serverId], ok)
    | none => (removeOutboxById db item.id, [], true)
  | .updateIdea => (db, [], false)

/-- Result of the `for (const item of items)` loop of `flushOutbox`. -/
structure DrainResult where
  db : DbState
  anyFailed : Bool
  trace : List RemoteCall
  obs : Nat
deriving Repr

/-- The drain loop of `flushOutbox`: walk the materialized item list in
order; before each item re-read `mountedRef.current` and `isOnline`
(observation counter `t`) and break if either is false; otherwise process
the item and accumulate `anyFailed` and the remote-call trace. -/
def drainLoop (env : SyncEnv) : DbState → List OutboxItem → Nat → Bool →
    List RemoteCall → DrainResult
  | db, [], t, anyFailed, trace => ⟨db, anyFailed, trace, t⟩
  | db, item :: rest, t, anyFailed, trace =>
    if env.mountedAt t && env.onlineAt t then
      match processItem env db item with
      | (db1, calls, ok) =>
        drainLoop env db1 rest (t + 1) (anyFailed || !ok) (trace ++ calls)
    else ⟨db, anyFailed, trace, t⟩

/-- The process-wide mutable sync state: the database, the `isSyncing`
flag, the backoff index `currentRetryIndex`, and the retry timer (live
`setTimeout` timers as `(id, delay)` pairs, fresh-id counter, and the
`retryTimeoutId` variable tracking the last scheduled timer). -/
structure EngineState where
  db : DbState
  isSyncing : Bool
  currentRetryIndex : Nat
  nextTimerId : Nat
  pendingRetries : List (Nat × Nat)
  retryTimeoutId : Option Nat
deriving DecidableEq, Repr

/-- `if (retryTimeoutId) clearTimeout(retryTimeoutId)`: cancel the tracked
timer if there is one (cancelling an already-fired id is a no-op). -/
def clearRetryTimeout (tracked : Option Nat) (pending : List (Nat × Nat)) :
    List (Nat × Nat) :=
  match tracked with
  | some tid => pending.filter (fun p => p.1 != tid)
  | none => pending

/-- `flushOutbox`: one drain pass.  Guard (`!mountedRef.current ||
isSyncing || !isOnline` is a no-op), empty-outbox early return, the drain
loop, retry scheduling with backoff on failure / backoff reset otherwise,
and the `finally { isSyncing = false }`.  Also returns the remote-call
trace of the pass. -/
def flushOutbox (env : SyncEnv) (st : EngineState) : EngineState × List RemoteCall :=
  if !env.mountedAt 0 || st.isSyncing || !env.onlineAt 0 then (st, [])
  else
    let items := getOutboxItems st.db
    if items.isEmpty then
      ({ st with currentRetryIndex := 0, isSyncing := false }, [])
    else
      match drainLoop env st.db items 1 false [] with
      | ⟨db1, anyFailed, trace, t⟩ =>
        if anyFailed && env.onlineAt t && env.mountedAt t then
          let delay := RETRY_DELAYS.getD
            (min st.currentRetryIndex (RETRY_DELAYS.length - 1)) 0
          ({ st with db := db1,
                     currentRetryIndex := st.currentRetryIndex + 1,
                     pendingRetries :=
                       clearRetryTimeout st.retryTimeoutId st.pendingRetries
                         ++ [(st.nextTimerId, delay)],
                     retryTimeoutId := some st.nextTimerId,
                     nextTimerId := st.nextTimerId + 1,
                     isSyncing := false }, trace)
        else
          ({ st with db := db1, currentRetryIndex := 0, isSyncing := false }, trace)

/-- One whole drain pass over the current outbox, starting the observation
counter after the entry guard's read. -/
def drainResult (env : SyncEnv) (db : DbState) : DrainResult :=
  drainLoop env db (getOutboxItems db) 1 false []

/-- The events that reach the sync engine: the initial mount's flush, the
offline-to-online connectivity edge, the app-foreground (`'active'`)
transition, `syncNow`, a scheduled retry timer firing, and teardown. -/
inductive Trigger where
  | initialMount
  | onlineEdge
  | appForeground
  | syncNow
  | timerFire (tid : Nat)
  | teardown
deriving DecidableEq, Repr

/-- The engine's reaction to each trigger, as wired in `useSyncService`:
the connectivity handler resets the backoff index and flushes on the
offline-to-online edge; the app-state handler flushes when active, online
and mounted; `syncNow` returns early when offline and otherwise flushes;
a retry timer that fires is consumed and flushes when mounted and online
(the stale `retryTimeoutId` is not cleared by firing); teardown cancels
the tracked timer. -/
def stepTrigger (env : SyncEnv) (tr : Trigger) (st : EngineState) : EngineState :=
  match tr with
  | .initialMount => (flushOutbox env st).1
  | .onlineEdge =>
    if env.mountedAt 0 then
      (flushOutbox env { st with currentRetryIndex := 0 }).1
    else st
  | .appForeground =>
    if env.onlineAt 0 && env.mountedAt 0 then (flushOutbox env st).1 else st
  | .syncNow =>
    if env.onlineAt 0 then (flushOutbox env st).1 else st
  | .timerFire tid =>
    if st.pendingRetries.any (fun p => p.1 == tid) then
      let st1 := { st with
        pendingRetries := st.pendingRetries.filter (fun p => p.1 != tid) }
      if env.mountedAt 0 && env.onlineAt 0 then (flushOutbox env st1).1 else st1
    else st
  | .teardown =>
    { st with pendingRetries := clearRetryTimeout st.retryTimeoutId st.pendingRetries,
              retryTimeoutId := none }

/-! ### Specification predicates over the embedding -/

/-- The engine stays mounted and online at every suspension point. -/
def alwaysUp (env : SyncEnv) : Prop :=
  ∀ t, env.mountedAt t = true ∧ env.onlineAt t = true

/-- Every remote mutation succeeds, whatever its arguments. -/
def remoteAllOk (env : SyncEnv) : Prop :=
  (∀ c, ∃ v, env.createProjectR c = .ok v) ∧
  (∀ c p s, ∃ v, env.createFeatureR c p s = .ok v) ∧
  (∀ i s, ∃ v, env.updateStatusR i s = .ok v) ∧
  (∀ i, ∃ v, env.archiveIdeaR i = .ok v) ∧
  (∀ i, ∃ v, env.deleteIdeaR i = .ok v)

/-- Processing `item` against database `db` reaches its remote call and
that call raises error `e` (for the three serverId-requiring kinds this
includes that a serverId resolved, so the call was attempted). -/
def remoteErrorAt (env : SyncEnv) (db : DbState) (item : OutboxItem) (e : String) : Prop :=
  match item.action with
  | .createProject => env.createProjectR item.payload.content = .error e
  | .createFeature =>
      env.createFeatureR item.payload.content (resolveParentServerId db item.payload)
        (item.payload.status.getD "INBOX") = .error e
  | .updateStatus => ∃ s, jsTruthy (resolveServerId db item.payload) = some s ∧
      env.updateStatusR s item.payload.status = .error e
  | .archiveIdea => ∃ s, jsTruthy (resolveServerId db item.payload) = some s ∧
      env.archiveIdeaR s = .error e
  | .deleteIdea => ∃ s, jsTruthy (resolveServerId db item.payload) = some s ∧
      env.deleteIdeaR s = .error e
  | .updateIdea => False

/-- Processing `item` against database `db` reaches its remote call and
that call succeeds (its "resolved path"). -/
def remoteOkAt (env : SyncEnv) (db : DbState) (item : OutboxItem) : Prop :=
  match item.action with
  | .createProject => ∃ v, env.createProjectR item.payload.content = .ok v
  | .createFeature =>
      ∃ v, env.createFeatureR item.payload.content (resolveParentServerId db item.payload)
        (item.payload.status.getD "INBOX") = .ok v
  | .updateStatus => ∃ s, jsTruthy (resolveServerId db item.payload) = some s ∧
      ∃ v, env.updateStatusR s item.payload.status = .ok v
  | .archiveIdea => ∃ s, jsTruthy (resolveServerId db item.payload) = some s ∧
      ∃ v, env.archiveIdeaR s = .ok v
  | .deleteIdea => ∃ s, jsTruthy (resolveServerId db item.payload) = some s ∧
      ∃ v, env.deleteIdeaR s = .ok v
  | .updateIdea => False

/-- An item whose processing always issues exactly one remote call: a
handled action kind, carrying a usable serverId in its payload when the
action needs one. -/
def handledEagerly (item : OutboxItem) : Prop :=
  item.action ≠ .updateIdea ∧
  ((item.action = .updateStatus ∨ item.action = .archiveIdea ∨ item.action = .deleteIdea) →
    ∃ s, item.payload.serverId = some s ∧ s ≠ "")

/-- The retry-timer invariant: at most one retry timer is live, and a live
timer is the one `retryTimeoutId` tracks. -/
def TimerInv (st : EngineState) : Prop :=
  st.pendingRetries = [] ∨
  ∃ tid d, st.pendingRetries = [(tid, d)] ∧ st.retryTimeoutId = some tid

instance : IsTotal OutboxItem (fun a b => a.createdAt ≤ b.createdAt) :=
  ⟨fun a b => Nat.le_total a.createdAt b.createdAt⟩

instance : IsTrans OutboxItem (fun a b => a.createdAt ≤ b.createdAt) :=
  ⟨fun _ _ _ => Nat.le_trans⟩

/-! ### Concrete instances used by witnesses and counterexamples -/

/-- Environment in which every remote call succeeds and the engine stays
online and mounted. -/
def remoteOkEnv : SyncEnv where
  createProjectR := fun _ => .ok "srv_1"
  createFeatureR := fun _ _ _ => .ok "srv_2"
  updateStatusR := fun i _ => .ok i
  archiveIdeaR := fun i => .ok i
  deleteIdeaR := fun i => .ok i
  now := 1000
  onlineAt := fun _ => true
  mountedAt := fun _ => true

/-- Environment in which every remote call fails with a network error while
the engine stays online and mounted. -/
def remoteFailEnv : SyncEnv where
  createProjectR := fun _ => .error "network error"
  createFeatureR := fun _ _ _ => .error "network error"
  updateStatusR := fun _ _ => .error "network error"
  archiveIdeaR := fun _ => .error "network error"
  deleteIdeaR := fun _ => .error "network error"
  now := 1000
  onlineAt := fun _ => true
  mountedAt := fun _ => true

/-- A locally captured PROJECT record with localId "A", not yet synced. -/
def ideaA : IdeaRecord where
  localId := "A"
  serverId := none
  content := "Ship v1"
  type := "PROJECT"
  parentProjectLocalId := none
  parentProjectServerId := none
  status := "BACKLOG"
  archived := 0
  createdAt := 1
  updatedAt := 1

/-- Payload of a `createProject` enqueue for localId "A". -/
def payloadA : Payload where
  localId := some "A"
  content := "Ship v1"
  serverId := none
  status := none
  parentProjectLocalId := none
  parentProjectServerId := none

/-- Payload of an `updateStatus` enqueue for localId "A" (no serverId). -/
def payloadUpdA : Payload where
  localId := some "A"
  content := ""
  serverId := none
  status := some "DONE"
  parentProjectLocalId := none
  parentProjectServerId := none

/-- Pending `createProject` outbox entry for localId "A". -/
def itemCreateA : OutboxItem where
  id := "ob1"
  action := .createProject
  payload := payloadA
  createdAt := 1
  attemptCount := 0
  lastError := none

/-- Pending `updateStatus` outbox entry for localId "A", enqueued after
`itemCreateA`. -/
def itemUpdateA : OutboxItem where
  id := "ob2"
  action := .updateStatus
  payload := payloadUpdA
  createdAt := 2
  attemptCount := 0
  lastError := none

/-- An outbox entry carrying the `updateIdea` action kind, which
`processItem` does not handle. -/
def itemUpdIdea : OutboxItem where
  id := "ob3"
  action := .updateIdea
  payload := payloadA
  createdAt := 1
  attemptCount := 5
  lastError := none

/-- A `createProject` entry for localId "A" enqueued after `itemUpdIdea`. -/
def itemCreateA2 : OutboxItem where
  id := "ob4"
  action := .createProject
  payload := payloadA
  createdAt := 2
  attemptCount := 0
  lastError := none

/-- A `createProject` entry that has already failed ten times. -/
def itemCreateMax : OutboxItem where
  id := "ob9"
  action := .createProject
  payload := payloadA
  createdAt := 1
  attemptCount := 10
  lastError := some "network error"

/-- Database with one unsynced record and one pending create. -/
def dbW1 : DbState where
  ideas := [ideaA]
  outbox := [itemCreateA]

/-- Payload of a second, later `createProject` enqueue (localId "C"). -/
def payloadC : Payload where
  localId := some "C"
  content := "Write docs"
  serverId := none
  status := none
  parentProjectLocalId := none
  parentProjectServerId := none

/-- Pending `createProject` entry for localId "C", enqueued after
`itemCreateA`. -/
def itemCreateC : OutboxItem where
  id := "ob6"
  action := .createProject
  payload := payloadC
  createdAt := 3
  attemptCount := 0
  lastError := none

/-- Database with two pending creates stored out of enqueue order (the
later "C" entry first), so the FIFO sort is exercised. -/
def dbW1b : DbState where
  ideas := [ideaA]
  outbox := [itemCreateC, itemCreateA]

/-- Database with a pending create for "A" followed by a pending
updateStatus for "A": the collateral-removal scenario. -/
def dbC9 : DbState where
  ideas := [ideaA]
  outbox := [itemCreateA, itemUpdateA]

/-- Database with an unhandled `updateIdea` entry followed by a create for
the same localId. -/
def dbC10 : DbState where
  ideas := [ideaA]
  outbox := [itemUpdIdea, itemCreateA2]

/-- Engine state with a pending scheduled retry (timer 0, 30000 ms) and one
queued create, idle and ready for a new trigger. -/
def stC8 : EngineState where
  db := { ideas := [], outbox := [itemCreateA] }
  isSyncing := false
  currentRetryIndex := 2
  nextTimerId := 1
  pendingRetries := [(0, 30000)]
  retryTimeoutId := some 0

/-- Engine state over `dbC9`, idle. -/
def stC9 : EngineState where
  db := dbC9
  isSyncing := false
  currentRetryIndex := 0
  nextTimerId := 0
  pendingRetries := []
  retryTimeoutId := none

/-- Engine state over `dbC10`, idle. -/
def stC10 : EngineState where
  db := dbC10
  isSyncing := false
  currentRetryIndex := 0
  nextTimerId := 0
  pendingRetries := []
  retryTimeoutId := none

/-- Engine state with a drain pass already in progress. -/
def stBusy : EngineState where
  db := { ideas := [], outbox := [itemCreateA] }
  isSyncing := true
  currentRetryIndex := 0
  nextTimerId := 0
  pendingRetries := []
  retryTimeoutId := none

/-- Engine state with one queued create and backoff index 0, idle. -/
def stIdx0 : EngineState where
  db := { ideas := [], outbox := [itemCreateA] }
  isSyncing := false
  currentRetryIndex := 0
  nextTimerId := 0
  pendingRetries := []
  retryTimeoutId := none

/-- Database holding the record "A" and a single failing create for it. -/
def dbW7 : DbState where
  ideas := [ideaA]
  outbox := [itemCreateA]

/-- Payload of a `createFeature` enqueue for localId "B" whose parent is
referenced only by the parent's localId "A" (no serverId yet). -/
def payloadFeatB : Payload where
  localId := some "B"
  content := "Add login"
  serverId := none
  status := none
  parentProjectLocalId := some "A"
  parentProjectServerId := none

/-- Pending `createFeature` entry for localId "B", enqueued after the
parent's create. -/
def itemFeatureB : OutboxItem where
  id := "ob5"
  action := .createFeature
  payload := payloadFeatB
  createdAt := 2
  attemptCount := 0
  lastError := none

/-- Database with one never-synced `updateStatus` entry and no ideas. -/
def dbW5 : DbState where
  ideas := []
  outbox := [itemUpdateA]

/-- Database with one create entry that already failed ten times. -/
def dbW4 : DbState where
  ideas := []
  outbox := [itemCreateMax]

/-- `itemCreateA` after one more failed attempt, error recorded. -/
def itemCreateABumped : OutboxItem :=
  { itemCreateA with attemptCount := itemCreateA.attemptCount + 1, lastError := some "network error" }

/-! ### Helper lemmas -/

theorem removeOutboxByLocalId_ideas (db : DbState) (l : Option String) :
    (removeOutboxByLocalId db l).ideas = db.ideas := rfl

theorem removeOutboxById_ideas (db : DbState) (i : String) :
    (removeOutboxById db i).ideas = db.ideas := rfl

theorem incrementOutboxAttempt_ideas (db : DbState) (l : String) (m : Option String) :
    (incrementOutboxAttempt db l m).ideas = db.ideas := rfl

theorem markIdeaSynced_outbox (db : DbState) (l : Option String) (s : String) (n : Nat) :
    (markIdeaSynced db l s n).outbox = db.outbox := rfl

theorem mem_removeOutboxById (db : DbState) (i : String) :
    ∀ it ∈ (removeOutboxById db i).outbox, it.id ≠ i := by
  intro it hit
  simp only [removeOutboxById, List.mem_filter, bne_iff_ne, ne_eq] at hit
  exact hit.2

theorem mem_removeOutboxByLocalId (db : DbState) (lid : String) :
    ∀ it ∈ (removeOutboxByLocalId db (some lid)).outbox, it.payload.localId ≠ some lid := by
  intro it hit
  simp only [removeOutboxByLocalId, List.mem_filter, Option.isSome_some, Bool.true_and,
    Bool.not_eq_true', beq_eq_false_iff_ne, ne_eq] at hit
  exact hit.2

theorem mem_incrementOutboxAttempt (db : DbState) (lid : String) (m : Option String)
    (item : OutboxItem) (h : item ∈ db.outbox) :
    ∃ it ∈ (incrementOutboxAttempt db lid m).outbox, it.id = item.id := by
  refine ⟨_, List.mem_map_of_mem _ h, ?_⟩
  by_cases hc : item.payload.localId = some lid <;> simp [hc]

theorem bump_mem_incrementOutboxAttempt (db : DbState) (lid e : String)
    (item : OutboxItem) (h : item ∈ db.outbox) (hlid : item.payload.localId = some lid) :
    { item with attemptCount := item.attemptCount + 1, lastError := some e }
      ∈ (incrementOutboxAttempt db lid (some e)).outbox := by
  have hm := List.mem_map_of_mem
    (f := fun it : OutboxItem =>
      if it.payload.localId = some lid then
        { it with attemptCount := it.attemptCount + 1, lastError := some e }
      else it) h
  simpa [incrementOutboxAttempt, hlid] using hm

theorem processItem_error (env : SyncEnv) (db : DbState) (item : OutboxItem) (e : String)
    (h : remoteErrorAt env db item e) :
    ∃ calls, processItem env db item =
      ((processFailure db item e).1, calls, (processFailure db item e).2) := by
  rcases hpf : processFailure db item e with ⟨dbf, okf⟩
  cases hact : item.action
  case createProject =>
    simp only [remoteErrorAt, hact] at h
    exact ⟨[RemoteCall.createProject item.payload.content],
      by simp [processItem, hact, h, hpf]⟩
  case createFeature =>
    simp only [remoteErrorAt, hact] at h
    exact ⟨[RemoteCall.createFeature item.payload.content
        (resolveParentServerId db item.payload) (item.payload.status.getD "INBOX")],
      by simp [processItem, hact, h, hpf]⟩
  case updateStatus =>
    simp only [remoteErrorAt, hact] at h
    obtain ⟨s, hs, he⟩ := h
    exact ⟨[RemoteCall.updateStatus s item.payload.status],
      by simp [processItem, hact, hs, he, hpf]⟩
  case archiveIdea =>
    simp only [remoteErrorAt, hact] at h
    obtain ⟨s, hs, he⟩ := h
    exact ⟨[RemoteCall.archiveIdea s], by simp [processItem, hact, hs, he, hpf]⟩
  case deleteIdea =>
    simp only [remoteErrorAt, hact] at h
    obtain ⟨s, hs, he⟩ := h
    exact ⟨[RemoteCall.deleteIdea s], by simp [processItem, hact, hs, he, hpf]⟩
  case updateIdea =>
    simp only [remoteErrorAt, hact] at h

/-! ### Claim theorems -/

/-- C2: any drain trigger is a no-op while a pass is active or the engine
is offline (or unmounted), and a pass that does start clears `isSyncing`
on every exit path, so a later trigger can start a new pass. -/
theorem at_most_one_drain (env : SyncEnv) (st : EngineState) :
    ((st.isSyncing = true ∨ env.onlineAt 0 = false ∨ env.mountedAt 0 = false) →
      flushOutbox env st = (st, [])) ∧
    (st.isSyncing = false → env.onlineAt 0 = true → env.mountedAt 0 = true →
      (flushOutbox env st).1.isSyncing = false) := by
  constructor
  · rintro (h | h | h) <;> simp [flushOutbox, h]
  · intro h1 h2 h3
    simp only [flushOutbox, h1, h2, h3, Bool.not_true, Bool.or_false, Bool.false_or,
      Bool.or_self, if_false]
    split
    · simp_all
    · split
      · rfl
      · split <;> rfl

/-- C2 witness: with a pass in progress, `syncNow`'s flush is a no-op; on
the idle state a full pass ends with `isSyncing = false`. -/
theorem at_most_one_drain_witness :
    flushOutbox remoteOkEnv stBusy = (stBusy, []) ∧
    (flushOutbox remoteOkEnv stIdx0).1.isSyncing = false :=
  ⟨(at_most_one_drain remoteOkEnv stBusy).1 (Or.inl rfl),
   (at_most_one_drain remoteOkEnv stIdx0).2 rfl rfl rfl⟩

/-- C5: an `updateStatus` / `archiveIdea` / `deleteIdea` item whose payload
has no serverId and whose localId resolves to none is removed by its entry
id with no remote call, no attempt increment and no recorded error, and is
reported as a success. -/
theorem missing_serverId_noop (env : SyncEnv) (db : DbState) (item : OutboxItem)
    (hact : item.action = OutboxAction.updateStatus ∨
      item.action = OutboxAction.archiveIdea ∨ item.action = OutboxAction.deleteIdea)
    (hps : item.payload.serverId = none)
    (hlook : getServerIdByLocalId db item.payload.localId = none) :
    processItem env db item = (removeOutboxById db item.id, [], true) ∧
    (∀ it ∈ (processItem env db item).1.outbox, it.id ≠ item.id) ∧
    (processItem env db item).1.ideas = db.ideas := by
  have hres : jsTruthy (resolveServerId db item.payload) = none := by
    simp [resolveServerId, hps, hlook, jsTruthy]
  have hmain : processItem env db item = (removeOutboxById db item.id, [], true) := by
    rcases hact with h | h | h <;> simp [processItem, h, hres]
  refine ⟨hmain, ?_, ?_⟩
  · rw [hmain]
    exact mem_removeOutboxById db item.id
  · rw [hmain]
    rfl

/-- C5 witness: the never-synced `updateStatus` entry for "A" is dropped
with no remote call. -/
theorem missing_serverId_noop_witness :
    processItem remoteOkEnv dbW5 itemUpdateA = (removeOutboxById dbW5 itemUpdateA.id, [], true) ∧
    (processItem remoteOkEnv dbW5 itemUpdateA).1.ideas = dbW5.ideas :=
  ⟨(missing_serverId_noop remoteOkEnv dbW5 itemUpdateA (Or.inl rfl) rfl rfl).1,
   (missing_serverId_noop remoteOkEnv dbW5 itemUpdateA (Or.inl rfl) rfl rfl).2.2⟩

/-- C4: an item whose attemptCount (read at drain start) has reached the
ceiling of 10 and whose remote call fails is removed unconditionally and
reported as a success (not a pass failure); an item below the ceiling that
fails is reported as a failure and stays queued. -/
theorem abandonment_ceiling (env : SyncEnv) (db : DbState) (item : OutboxItem) (e : String)
    (herr : remoteErrorAt env db item e)
    (hceil : MAX_RETRY_ATTEMPTS ≤ item.attemptCount) :
    (processItem env db item).2.2 = true ∧
    (∀ it ∈ (processItem env db item).1.outbox, it.id ≠ item.id) ∧
    (∀ db2 item2 e2, remoteErrorAt env db2 item2 e2 →
      item2.attemptCount < MAX_RETRY_ATTEMPTS →
      (processItem env db2 item2).2.2 = false ∧
      (item2 ∈ db2.outbox →
        ∃ it ∈ (processItem env db2 item2).1.outbox, it.id = item2.id)) := by
  obtain ⟨calls, hpi⟩ := processItem_error env db item e herr
  have hok : (processFailure db item e).2 = true := by
    simp [processFailure, hceil]
  have hrem : ∃ db', (processFailure db item e).1 = removeOutboxById db' item.id := by
    simp only [processFailure, hceil, if_true]
    exact ⟨_, rfl⟩
  refine ⟨by rw [hpi]; exact hok, ?_, ?_⟩
  · obtain ⟨db', hdb'⟩ := hrem
    rw [hpi]
    simp only [hdb']
    exact mem_removeOutboxById db' item.id
  · intro db2 item2 e2 herr2 hlt
    obtain ⟨calls2, hpi2⟩ := processItem_error env db2 item2 e2 herr2
    have hnle : ¬ MAX_RETRY_ATTEMPTS ≤ item2.attemptCount := Nat.not_le.mpr hlt
    constructor
    · rw [hpi2]
      simp [processFailure, hnle]
    · intro hmem
      rw [hpi2]
      simp only [processFailure, hnle, if_false]
      cases hl : jsTruthy item2.payload.localId with
      | some lid =>
        simp only [hl]
        exact mem_incrementOutboxAttempt db2 lid (some e2) item2 hmem
      | none =>
        simp only [hl]
        exact ⟨item2, hmem, rfl⟩

theorem processItem_handled (env : SyncEnv) (hok : remoteAllOk env)
    (db : DbState) (item : OutboxItem) (h : handledEagerly item) :
    ∃ db1 c, processItem env db item = (db1, [c], true) ∧ RemoteCall.action c = item.action := by
  obtain ⟨hok1, hok2, hok3, hok4, hok5⟩ := hok
  obtain ⟨hne, hsv⟩ := h
  cases hact : item.action
  case createProject =>
    obtain ⟨v, hv⟩ := hok1 item.payload.content
    exact ⟨removeOutboxByLocalId (markIdeaSynced db item.payload.localId v env.now)
        item.payload.localId,
      RemoteCall.createProject item.payload.content,
      by simp [processItem, hact, hv], by simp [RemoteCall.action, hact]⟩
  case createFeature =>
    obtain ⟨v, hv⟩ := hok2 item.payload.content (resolveParentServerId db item.payload)
      (item.payload.status.getD "INBOX")
    exact ⟨removeOutboxByLocalId (markIdeaSynced db item.payload.localId v env.now)
        item.payload.localId,
      RemoteCall.createFeature item.payload.content
        (resolveParentServerId db item.payload) (item.payload.status.getD "INBOX"),
      by simp [processItem, hact, hv], by simp [RemoteCall.action, hact]⟩
  case updateStatus =>
    obtain ⟨s, hs, hsne⟩ := hsv (Or.inl hact)
    obtain ⟨v, hv⟩ := hok3 s item.payload.status
    exact ⟨removeOutboxByLocalId db item.payload.localId,
      RemoteCall.updateStatus s item.payload.status,
      by simp [processItem, hact, resolveServerId, hs, jsTruthy, hsne, hv],
      by simp [RemoteCall.action, hact]⟩
  case archiveIdea =>
    obtain ⟨s, hs, hsne⟩ := hsv (Or.inr (Or.inl hact))
    obtain ⟨v, hv⟩ := hok4 s
    exact ⟨removeOutboxByLocalId db item.payload.localId,
      RemoteCall.archiveIdea s,
      by simp [processItem, hact, resolveServerId, hs, jsTruthy, hsne, hv],
      by simp [RemoteCall.action, hact]⟩
  case deleteIdea =>
    obtain ⟨s, hs, hsne⟩ := hsv (Or.inr (Or.inr hact))
    obtain ⟨v, hv⟩ := hok5 s
    exact ⟨removeOutboxByLocalId db item.payload.localId,
      RemoteCall.deleteIdea s,
      by simp [processItem, hact, resolveServerId, hs, jsTruthy, hsne, hv],
      by simp [RemoteCall.action, hact]⟩
  case updateIdea => exact absurd hact hne

theorem drainLoop_cons_up (env : SyncEnv) (h : alwaysUp env) (db : DbState)
    (item : OutboxItem) (rest : List OutboxItem) (t : Nat) (af : Bool)
    (tr : List RemoteCall) :
    drainLoop env db (item :: rest) t af tr =
      drainLoop env (processItem env db item).1 rest (t + 1)
        (af || !(processItem env db item).2.2)
        (tr ++ (processItem env db item).2.1) := by
  obtain ⟨hm, ho⟩ := h t
  rcases hpi : processItem env db item with ⟨db1, calls, ok⟩
  simp [drainLoop, hm, ho, hpi]

theorem drainLoop_obs_up (env : SyncEnv) (h : alwaysUp env) :
    ∀ (items : List OutboxItem) (db : DbState) (t : Nat) (af : Bool)
      (tr : List RemoteCall),
      (drainLoop env db items t af tr).obs = t + items.length := by
  intro items
  induction items with
  | nil => intro db t af tr; simp [drainLoop]
  | cons item rest ih =>
    intro db t af tr
    rw [drainLoop_cons_up env h, ih]
    simp; omega

theorem drainLoop_anyFailed_true (env : SyncEnv) :
    ∀ (items : List OutboxItem) (db : DbState) (t : Nat) (tr : List RemoteCall),
      (drainLoop env db items t true tr).anyFailed = true := by
  intro items
  induction items with
  | nil => intro db t tr; simp [drainLoop]
  | cons item rest ih =>
    intro db t tr
    by_cases hc : (env.mountedAt t && env.onlineAt t) = true
    · rcases hpi : processItem env db item with ⟨db1, calls, ok⟩
      simp [drainLoop, hc, hpi, ih]
    · simp [drainLoop, hc]

theorem drainLoop_append_up (env : SyncEnv) (h : alwaysUp env) :
    ∀ (xs ys : List OutboxItem) (db : DbState) (t : Nat) (af : Bool)
      (tr : List RemoteCall),
      drainLoop env db (xs ++ ys) t af tr =
        drainLoop env (drainLoop env db xs t af tr).db ys
          (drainLoop env db xs t af tr).obs
          (drainLoop env db xs t af tr).anyFailed
          (drainLoop env db xs t af tr).trace := by
  intro xs
  induction xs with
  | nil => intro ys db t af tr; simp [drainLoop]
  | cons x rest ih =>
    intro ys db t af tr
    simp only [List.cons_append, drainLoop_cons_up env h, ih]

theorem drainLoop_trace_append (env : SyncEnv) :
    ∀ (items : List OutboxItem) (db : DbState) (t : Nat) (af : Bool)
      (tr : List RemoteCall),
      (drainLoop env db items t af tr).trace
        = tr ++ (drainLoop env db items t af []).trace := by
  intro items
  induction items with
  | nil => intro db t af tr; simp [drainLoop]
  | cons item rest ih =>
    intro db t af tr
    by_cases hc : (env.mountedAt t && env.onlineAt t) = true
    · rcases hpi : processItem env db item with ⟨db1, calls, ok⟩
      simp only [drainLoop, hc, if_true, hpi]
      rw [ih db1 (t + 1) (af || !ok) (tr ++ calls), ih db1 (t + 1) (af || !ok) ([] ++ calls)]
      simp
    · simp [drainLoop, hc]

theorem drainLoop_trace_length (env : SyncEnv) (hok : remoteAllOk env)
    (hup : alwaysUp env) :
    ∀ (items : List OutboxItem) (db : DbState) (t : Nat) (af : Bool)
      (tr : List RemoteCall),
      (∀ item ∈ items, handledEagerly item) →
      (drainLoop env db items t af tr).trace.length = tr.length + items.length := by
  intro items
  induction items with
  | nil => intro db t af tr _; simp [drainLoop]
  | cons item rest ih =>
    intro db t af tr hall
    obtain ⟨db1, c, hpi, hc⟩ := processItem_handled env hok db item (hall item (by simp))
    rw [drainLoop_cons_up env hup, hpi]
    have := ih db1 (t + 1) (af || !true) (tr ++ [c])
      (fun it hit => hall it (by simp [hit]))
    simp only [this]
    simp [List.length_append]
    omega

/-- C1: `getOutboxItems` returns all outbox entries sorted by `createdAt`
ascending, and when every item is handled and every remote call succeeds
the drain loop issues exactly one remote call per item, in list order: the
call at trace position k is precisely the call that processing the k-th
FIFO item makes (at the state the first k items produced), so the remote
calls occur in exact enqueue order. -/
theorem drain_fifo_order (env : SyncEnv) (db : DbState)
    (hok : remoteAllOk env) (hup : alwaysUp env)
    (hall : ∀ item ∈ getOutboxItems db, handledEagerly item) :
    (getOutboxItems db).Perm db.outbox ∧
    List.Sorted (fun a b : OutboxItem => a.createdAt ≤ b.createdAt) (getOutboxItems db) ∧
    (drainResult env db).trace.length = (getOutboxItems db).length ∧
    (∀ pre item post, getOutboxItems db = pre ++ item :: post →
      ∃ c, (processItem env (drainLoop env db pre 1 false []).db item).2.1 = [c] ∧
        RemoteCall.action c = item.action ∧
        (drainResult env db).trace[pre.length]? = some c) := by
  refine ⟨List.perm_insertionSort _ _, List.sorted_insertionSort _ _, ?_, ?_⟩
  · simpa [drainResult] using
      drainLoop_trace_length env hok hup (getOutboxItems db) db 1 false [] hall
  · intro pre item post hitems
    have hallpre : ∀ it ∈ pre, handledEagerly it := fun it hit =>
      hall it (by rw [hitems]; exact List.mem_append_left _ hit)
    have hitem : handledEagerly item :=
      hall item (by rw [hitems]; exact List.mem_append_right _ (by simp))
    obtain ⟨db1, c, hpi, hc⟩ :=
      processItem_handled env hok (drainLoop env db pre 1 false []).db item hitem
    refine ⟨c, by rw [hpi], hc, ?_⟩
    have hlen : (drainLoop env db pre 1 false []).trace.length = pre.length := by
      simpa using drainLoop_trace_length env hok hup pre db 1 false [] hallpre
    unfold drainResult
    rw [hitems, drainLoop_append_up env hup, drainLoop_cons_up env hup, hpi,
      drainLoop_trace_append env]
    rw [List.append_assoc, List.getElem?_append_right hlen.le]
    rw [hlen, Nat.sub_self]
    simp

/-- C1 witness: two same-kind creates stored out of enqueue order drain in
`createdAt` order — the first remote call is the earlier item's create,
the second is the later item's. -/
theorem drain_fifo_order_witness :
    (getOutboxItems dbW1b).Perm dbW1b.outbox ∧
    List.Sorted (fun a b : OutboxItem => a.createdAt ≤ b.createdAt) (getOutboxItems dbW1b) ∧
    (drainResult remoteOkEnv dbW1b).trace.length = 2 ∧
    (drainResult remoteOkEnv dbW1b).trace[0]? = some (RemoteCall.createProject "Ship v1") ∧
    (drainResult remoteOkEnv dbW1b).trace[1]? = some (RemoteCall.createProject "Write docs") := by
  have hall : ∀ item ∈ getOutboxItems dbW1b, handledEagerly item := by
    intro item hmem
    have he : getOutboxItems dbW1b = [itemCreateA, itemCreateC] := by decide
    rw [he] at hmem
    rcases List.mem_cons.mp hmem with rfl | hmem2
    · exact ⟨by decide, fun hc => absurd hc (by decide)⟩
    · obtain rfl := List.mem_singleton.mp hmem2
      exact ⟨by decide, fun hc => absurd hc (by decide)⟩
  have h := drain_fifo_order remoteOkEnv dbW1b
    ⟨fun c => ⟨"srv_1", rfl⟩, fun c p s => ⟨"srv_2", rfl⟩, fun i s => ⟨i, rfl⟩,
     fun i => ⟨i, rfl⟩, fun i => ⟨i, rfl⟩⟩
    (fun _ => ⟨rfl, rfl⟩) hall
  obtain ⟨c0, hc0, -, hi0⟩ := h.2.2.2 [] itemCreateA [itemCreateC] (by decide)
  obtain ⟨c1, hc1, -, hi1⟩ := h.2.2.2 [itemCreateA] itemCreateC [] (by decide)
  have e0 : c0 = RemoteCall.createProject "Ship v1" := by
    have hv : (processItem remoteOkEnv (drainLoop remoteOkEnv dbW1b [] 1 false []).db
        itemCreateA).2.1 = [RemoteCall.createProject "Ship v1"] := by decide
    have hcc := hc0.symm.trans hv
    injection hcc
  have e1 : c1 = RemoteCall.createProject "Write docs" := by
    have hv : (processItem remoteOkEnv
        (drainLoop remoteOkEnv dbW1b [itemCreateA] 1 false []).db
        itemCreateC).2.1 = [RemoteCall.createProject "Write docs"] := by decide
    have hcc := hc1.symm.trans hv
    injection hcc
  rw [e0] at hi0
  rw [e1] at hi1
  exact ⟨h.1, h.2.1, h.2.2.1, hi0, hi1⟩

theorem find?_mark (lid sid : String) (now : Nat) :
    ∀ (ideas : List IdeaRecord), (∃ r ∈ ideas, r.localId = lid) →
      ∃ r1, (ideas.map (fun r => if some r.localId = some lid then
          { r with serverId := some sid, updatedAt := now } else r)).find?
          (fun r => some r.localId == some lid) = some r1 ∧ r1.serverId = some sid := by
  intro ideas
  induction ideas with
  | nil => intro h; simp at h
  | cons r rs ih =>
    intro h
    by_cases hc : r.localId = lid
    · exact ⟨{ r with serverId := some sid, updatedAt := now },
        by simp [List.find?_cons, hc], rfl⟩
    · obtain ⟨r0, hr0, hl0⟩ := h
      rcases List.mem_cons.mp hr0 with rfl | hr0m
      · exact absurd hl0 hc
      · obtain ⟨r1, hf, hs1⟩ := ih ⟨r0, hr0m, hl0⟩
        refine ⟨r1, ?_, hs1⟩
        have hneq : ¬ some r.localId = some lid := fun hx => hc (Option.some.inj hx)
        have hbeq : (some r.localId == some lid) = false := by simpa using hc
        simp only [List.map_cons, if_neg hneq, List.find?_cons, hbeq]
        exact hf

theorem getServerIdByLocalId_markIdeaSynced (db : DbState) (lid sid : String)
    (now : Nat) (h : ∃ r ∈ db.ideas, r.localId = lid) :
    getServerIdByLocalId (markIdeaSynced db (some lid) sid now) (some lid) = some sid := by
  obtain ⟨r1, hf, hs1⟩ := find?_mark lid sid now db.ideas h
  simp only [getServerIdByLocalId, markIdeaSynced]
  rw [hf]
  exact hs1

/-- C3: a `createProject` for localId A processed successfully earlier in
the pass makes the serverId it was assigned visible to a later
`createFeature` whose payload references A only by `parentProjectLocalId`;
and a `createFeature` whose parent resolves to nothing is still created,
with no parent link, rather than failing. -/
theorem parent_resolution_same_pass (env : SyncEnv) (db : DbState)
    (p f : OutboxItem) (aLid sid : String)
    (hpact : p.action = OutboxAction.createProject)
    (hplid : p.payload.localId = some aLid)
    (hok : env.createProjectR p.payload.content = Except.ok sid)
    (hrec : ∃ r ∈ db.ideas, r.localId = aLid)
    (hfact : f.action = OutboxAction.createFeature)
    (hfps : f.payload.parentProjectServerId = none)
    (hfpl : f.payload.parentProjectLocalId = some aLid)
    (haLid : aLid ≠ "") :
    (processItem env db p).2.2 = true ∧
    (processItem env (processItem env db p).1 f).2.1
      = [RemoteCall.createFeature f.payload.content (some sid)
          (f.payload.status.getD "INBOX")] ∧
    (∀ db2 g, g.action = OutboxAction.createFeature →
      resolveParentServerId db2 g.payload = none →
      (processItem env db2 g).2.1
        = [RemoteCall.createFeature g.payload.content none
            (g.payload.status.getD "INBOX")] ∧
      (∀ v, env.createFeatureR g.payload.content none (g.payload.status.getD "INBOX")
          = Except.ok v → (processItem env db2 g).2.2 = true)) := by
  have hp1 : processItem env db p =
      (removeOutboxByLocalId (markIdeaSynced db (some aLid) sid env.now) (some aLid),
       [RemoteCall.createProject p.payload.content], true) := by
    simp [processItem, hpact, hok, hplid]
  have hlookup : getServerIdByLocalId (processItem env db p).1 (some aLid) = some sid := by
    rw [hp1]
    have heq : getServerIdByLocalId
        (removeOutboxByLocalId (markIdeaSynced db (some aLid) sid env.now) (some aLid))
        (some aLid)
        = getServerIdByLocalId (markIdeaSynced db (some aLid) sid env.now) (some aLid) := rfl
    rw [heq]
    exact getServerIdByLocalId_markIdeaSynced db aLid sid env.now hrec
  have hres : resolveParentServerId (processItem env db p).1 f.payload = some sid := by
    simp [resolveParentServerId, hfps, hfpl, haLid, hlookup]
  have hp1' : (processItem env db p).1 =
      removeOutboxByLocalId (markIdeaSynced db (some aLid) sid env.now) (some aLid) := by
    rw [hp1]
  refine ⟨by rw [hp1], ?_, ?_⟩
  · rw [hp1'] at hres ⊢
    cases hcf : env.createFeatureR f.payload.content (some sid)
        (f.payload.status.getD "INBOX") with
    | ok v => simp [processItem, hfact, hres, hcf]
    | error e =>
      rcases hpf : processFailure
        (removeOutboxByLocalId (markIdeaSynced db (some aLid) sid env.now) (some aLid))
        f e with ⟨dbf, okf⟩
      simp [processItem, hfact, hres, hcf, hpf]
  · intro db2 g hg hresg
    constructor
    · cases hcf : env.createFeatureR g.payload.content none
          (g.payload.status.getD "INBOX") with
      | ok v => simp [processItem, hg, hresg, hcf]
      | error e =>
        rcases hpf : processFailure db2 g e with ⟨dbf, okf⟩
        simp [processItem, hg, hresg, hcf, hpf]
    · intro v hv
      simp [processItem, hg, hresg, hv]

/-- C3 witness: draining the create for "A" and then the feature for "B"
propagates the freshly assigned serverId "srv_1" into the feature's remote
call as its parent link. -/
theorem parent_resolution_same_pass_witness :
    (processItem remoteOkEnv dbW1 itemCreateA).2.2 = true ∧
    (processItem remoteOkEnv (processItem remoteOkEnv dbW1 itemCreateA).1 itemFeatureB).2.1
      = [RemoteCall.createFeature "Add login" (some "srv_1") "INBOX"] := by
  have h := parent_resolution_same_pass remoteOkEnv dbW1 itemCreateA itemFeatureB
    "A" "srv_1" rfl rfl rfl ⟨ideaA, by simp [dbW1], rfl⟩ rfl rfl rfl (by decide)
  exact ⟨h.1, h.2.1⟩

/-- C7: a recoverable failure of one item (below the ceiling, carrying a
truthy localId, while the engine stays up) does not abort the pass: the
loop still reaches every item; the pass is marked failed; and the failing
item itself is reported as a failure and stays queued with `attemptCount`
incremented by one and `lastError` set to the error text. -/
theorem failure_independence (env : SyncEnv) (db : DbState)
    (pre post : List OutboxItem) (bad : OutboxItem) (e lid : String)
    (hup : alwaysUp env)
    (herr : remoteErrorAt env (drainLoop env db pre 1 false []).db bad e)
    (hbelow : bad.attemptCount < MAX_RETRY_ATTEMPTS)
    (hlid : bad.payload.localId = some lid)
    (hlidne : lid ≠ "")
    (hmem : bad ∈ (drainLoop env db pre 1 false []).db.outbox) :
    (drainLoop env db (pre ++ bad :: post) 1 false []).obs
      = 1 + (pre ++ bad :: post).length ∧
    (drainLoop env db (pre ++ bad :: post) 1 false []).anyFailed = true ∧
    (processItem env (drainLoop env db pre 1 false []).db bad).2.2 = false ∧
    { bad with attemptCount := bad.attemptCount + 1, lastError := some e }
      ∈ (processItem env (drainLoop env db pre 1 false []).db bad).1.outbox := by
  obtain ⟨calls, hpi⟩ := processItem_error env (drainLoop env db pre 1 false []).db bad e herr
  have hnle : ¬ MAX_RETRY_ATTEMPTS ≤ bad.attemptCount := Nat.not_le.mpr hbelow
  have hfail2 : (processFailure (drainLoop env db pre 1 false []).db bad e).2 = false := by
    simp [processFailure, hnle]
  have hfail1 : (processFailure (drainLoop env db pre 1 false []).db bad e).1
      = incrementOutboxAttempt (drainLoop env db pre 1 false []).db lid (some e) := by
    simp [processFailure, hnle, hlid, jsTruthy, hlidne]
  refine ⟨drainLoop_obs_up env hup _ db 1 false [], ?_, ?_, ?_⟩
  · rw [drainLoop_append_up env hup, drainLoop_cons_up env hup, hpi]
    simp only [hfail2, Bool.not_false, Bool.or_true]
    exact drainLoop_anyFailed_true env post _ _ _
  · rw [hpi]
    exact hfail2
  · rw [hpi]
    simp only [hfail1]
    exact bump_mem_incrementOutboxAttempt (drainLoop env db pre 1 false []).db lid e
      bad hmem hlid

/-- C7 witness: a one-item pass whose create fails stays queued with
attemptCount 1 and the error recorded, and the pass is marked failed. -/
theorem failure_independence_witness :
    (drainLoop remoteFailEnv dbW7 [itemCreateA] 1 false []).obs = 2 ∧
    (drainLoop remoteFailEnv dbW7 [itemCreateA] 1 false []).anyFailed = true ∧
    (processItem remoteFailEnv (drainLoop remoteFailEnv dbW7 [] 1 false []).db
      itemCreateA).2.2 = false ∧
    itemCreateABumped
      ∈ (processItem remoteFailEnv (drainLoop remoteFailEnv dbW7 [] 1 false []).db
          itemCreateA).1.outbox :=
  failure_independence remoteFailEnv dbW7 [] [] itemCreateA "network error" "A"
    (fun _ => ⟨rfl, rfl⟩) rfl (by decide) rfl (by decide) (by decide)

/-- C4 witness: the create that failed ten times already is abandoned on
its next failure; a fresh create that fails stays queued. -/
theorem abandonment_ceiling_witness :
    (processItem remoteFailEnv dbW4 itemCreateMax).2.2 = true ∧
    (processItem remoteFailEnv dbW7 itemCreateA).2.2 = false := by
  have h := abandonment_ceiling remoteFailEnv dbW4 itemCreateMax "network error" rfl
    (by decide)
  exact ⟨h.1, (h.2.2 dbW7 itemCreateA "network error" rfl (by decide)).1⟩

theorem isEmpty_false_of_ne_nil {l : List OutboxItem} (h : l ≠ []) :
    l.isEmpty = false := by
  cases l with
  | nil => exact absurd rfl h
  | cons a t => rfl

theorem flushOutbox_failed_sched (env : SyncEnv) (st : EngineState)
    (hm : env.mountedAt 0 = true) (ho : env.onlineAt 0 = true)
    (hs : st.isSyncing = false)
    (hne : getOutboxItems st.db ≠ [])
    (hf : (drainResult env st.db).anyFailed = true)
    (hto : env.onlineAt (drainResult env st.db).obs = true)
    (htm : env.mountedAt (drainResult env st.db).obs = true) :
    (flushOutbox env st).1 = { st with
      db := (drainResult env st.db).db,
      currentRetryIndex := st.currentRetryIndex + 1,
      pendingRetries := clearRetryTimeout st.retryTimeoutId st.pendingRetries
        ++ [(st.nextTimerId,
          RETRY_DELAYS.getD (min st.currentRetryIndex (RETRY_DELAYS.length - 1)) 0)],
      retryTimeoutId := some st.nextTimerId,
      nextTimerId := st.nextTimerId + 1,
      isSyncing := false } := by
  have hemp := isEmpty_false_of_ne_nil hne
  simp only [drainResult] at hf hto htm
  simp only [flushOutbox, hs, hm, ho, hemp, Bool.not_true, Bool.or_false, Bool.false_or,
    Bool.or_self, hf, hto, htm, Bool.and_self, if_true, if_false, drainResult]
  simp

theorem flushOutbox_noFail_reset (env : SyncEnv) (st : EngineState)
    (hm : env.mountedAt 0 = true) (ho : env.onlineAt 0 = true)
    (hs : st.isSyncing = false)
    (hne : getOutboxItems st.db ≠ [])
    (hf : (drainResult env st.db).anyFailed = false) :
    (flushOutbox env st).1 = { st with
      db := (drainResult env st.db).db,
      currentRetryIndex := 0,
      isSyncing := false } := by
  have hemp := isEmpty_false_of_ne_nil hne
  simp only [drainResult] at hf
  simp only [flushOutbox, hs, hm, ho, hemp, Bool.not_true, Bool.or_false, Bool.false_or,
    Bool.or_self, hf, Bool.false_and, if_true, if_false, drainResult]
  simp

/-- C6: a failed pass (still online and mounted) schedules a retry after
`RETRY_DELAYS[min(backoffIndex, 3)]` milliseconds and increments the
backoff index; a pass with no failures resets the index to 0; the delays
for indices 0, 1, 2 are 2000, 5000, 10000 ms and every index from 3 on
gives 30000 ms, so three consecutive failed passes from index 0 schedule
2000, 5000, 10000 and a clean pass makes the next delay 2000 again. -/
theorem backoff_schedule (env : SyncEnv) (st : EngineState)
    (hm : env.mountedAt 0 = true) (ho : env.onlineAt 0 = true)
    (hs : st.isSyncing = false) :
    (getOutboxItems st.db ≠ [] → (drainResult env st.db).anyFailed = true →
      env.onlineAt (drainResult env st.db).obs = true →
      env.mountedAt (drainResult env st.db).obs = true →
      ((flushOutbox env st).1.pendingRetries.getLast?.map Prod.snd
        = some (RETRY_DELAYS.getD (min st.currentRetryIndex (RETRY_DELAYS.length - 1)) 0) ∧
       (flushOutbox env st).1.currentRetryIndex = st.currentRetryIndex + 1)) ∧
    (getOutboxItems st.db ≠ [] → (drainResult env st.db).anyFailed = false →
      (flushOutbox env st).1.currentRetryIndex = 0) ∧
    RETRY_DELAYS.getD (min 0 (RETRY_DELAYS.length - 1)) 0 = 2000 ∧
    RETRY_DELAYS.getD (min 1 (RETRY_DELAYS.length - 1)) 0 = 5000 ∧
    RETRY_DELAYS.getD (min 2 (RETRY_DELAYS.length - 1)) 0 = 10000 ∧
    (∀ i, 3 ≤ i → RETRY_DELAYS.getD (min i (RETRY_DELAYS.length - 1)) 0 = 30000) := by
  refine ⟨?_, ?_, by decide, by decide, by decide, ?_⟩
  · intro hne hf hto htm
    rw [flushOutbox_failed_sched env st hm ho hs hne hf hto htm]
    refine ⟨?_, rfl⟩
    simp [List.getLast?_concat]
  · intro hne hf
    rw [flushOutbox_noFail_reset env st hm ho hs hne hf]
  · intro i hi
    have hmin : min i (RETRY_DELAYS.length - 1) = 3 := by
      simp only [RETRY_DELAYS, List.length_cons, List.length_nil]
      omega
    rw [hmin]
    decide

/-- C6 witness: the first failed pass from backoff index 0 schedules a
2000 ms retry and bumps the index to 1. -/
theorem backoff_schedule_witness :
    (flushOutbox remoteFailEnv stIdx0).1.pendingRetries.getLast?.map Prod.snd = some 2000 ∧
    (flushOutbox remoteFailEnv stIdx0).1.currentRetryIndex = 1 := by
  have h := (backoff_schedule remoteFailEnv stIdx0 rfl rfl rfl).1
    (by decide) rfl rfl rfl
  exact ⟨h.1, h.2⟩

/-- C8 counterexample: with a retry pending (timer 0, 30000 ms), a
`syncNow` trigger runs a fully successful pass (the outbox drains) yet the
pending retry is neither cancelled nor replaced: timer 0 is still live,
still tracked, and can still fire afterwards. -/
theorem retry_not_cancelled_by_trigger :
    (stepTrigger remoteOkEnv Trigger.syncNow stC8).pendingRetries = [(0, 30000)] ∧
    (stepTrigger remoteOkEnv Trigger.syncNow stC8).retryTimeoutId = some 0 ∧
    (stepTrigger remoteOkEnv Trigger.syncNow stC8).db.outbox = [] ∧
    ((stepTrigger remoteOkEnv Trigger.syncNow stC8).pendingRetries.any
      (fun p => p.1 == 0)) = true :=
  ⟨by decide, by decide, by decide, by decide⟩

theorem clearRetryTimeout_of_timerInv (st : EngineState) (h : TimerInv st) :
    clearRetryTimeout st.retryTimeoutId st.pendingRetries = [] := by
  rcases h with h1 | ⟨tid, d, h1, h2⟩
  · cases st.retryTimeoutId <;> simp [clearRetryTimeout, h1]
  · simp [clearRetryTimeout, h1, h2]

theorem flushOutbox_timerInv (env : SyncEnv) (st : EngineState) (h : TimerInv st) :
    TimerInv (flushOutbox env st).1 := by
  have hcl := clearRetryTimeout_of_timerInv st h
  unfold flushOutbox
  split
  · exact h
  · dsimp only
    split
    · exact h
    · split
      · exact Or.inr ⟨st.nextTimerId,
          RETRY_DELAYS.getD (min st.currentRetryIndex (RETRY_DELAYS.length - 1)) 0,
          by simp [hcl], rfl⟩
      · exact h

/-- C8 amended: at most one scheduled retry is ever outstanding — whenever
a failing pass schedules a retry it first cancels the tracked timer — and
this invariant is preserved by every trigger; but a trigger does not by
itself cancel a pending retry: the timer is replaced only when the
triggered pass fails and schedules a new one (or on teardown), so after a
fully successful triggered pass the old timer remains and may fire a
further guarded drain. -/
theorem retry_replacement_invariant (env : SyncEnv) (tr : Trigger) (st : EngineState)
    (h : TimerInv st) :
    TimerInv (stepTrigger env tr st) ∧ (stepTrigger env tr st).pendingRetries.length ≤ 1 := by
  have hfilter : ∀ tid, TimerInv { st with
      pendingRetries := st.pendingRetries.filter (fun p => p.1 != tid) } := by
    intro tid
    rcases h with h1 | ⟨t0, d, h1, h2⟩
    · exact Or.inl (by simp [h1])
    · by_cases he : (t0 != tid) = true
      · exact Or.inr ⟨t0, d, by simp [h1, he], h2⟩
      · exact Or.inl (by simp [h1, List.filter, he])
  have key : TimerInv (stepTrigger env tr st) := by
    cases tr with
    | initialMount => exact flushOutbox_timerInv env st h
    | onlineEdge =>
      simp only [stepTrigger]
      split
      · exact flushOutbox_timerInv env _ h
      · exact h
    | appForeground =>
      simp only [stepTrigger]
      split
      · exact flushOutbox_timerInv env _ h
      · exact h
    | syncNow =>
      simp only [stepTrigger]
      split
      · exact flushOutbox_timerInv env _ h
      · exact h
    | timerFire tid =>
      simp only [stepTrigger]
      split
      · split
        · exact flushOutbox_timerInv env _ (hfilter tid)
        · exact hfilter tid
      · exact h
    | teardown =>
      exact Or.inl (clearRetryTimeout_of_timerInv st h)
  refine ⟨key, ?_⟩
  rcases key with h1 | ⟨tid, d, h1, h2⟩ <;> simp [h1]

/-- C8 amended witness: the invariant holds across the `syncNow` trigger
on the state with a pending retry. -/
theorem retry_replacement_invariant_witness :
    TimerInv (stepTrigger remoteOkEnv Trigger.syncNow stC8) ∧
    (stepTrigger remoteOkEnv Trigger.syncNow stC8).pendingRetries.length ≤ 1 :=
  retry_replacement_invariant remoteOkEnv Trigger.syncNow stC8
    (Or.inr ⟨0, 30000, rfl, rfl⟩)

/-- C9 counterexample: the create for "A" collaterally deletes the queued
`updateStatus` entry for "A" (the outbox is empty right after the create is
processed), yet the same drain pass still sends the updateStatus remote
call, because the loop walks the snapshot taken at pass start — so the
collaterally deleted entry IS sent to the remote service. -/
theorem collateral_snapshot_still_sent :
    (processItem remoteOkEnv dbC9 itemCreateA).1.outbox = [] ∧
    (flushOutbox remoteOkEnv stC9).2
      = [RemoteCall.createProject "Ship v1", RemoteCall.updateStatus "srv_1" (some "DONE")] :=
  ⟨by decide, by decide⟩

/-- C9 amended: successful processing on the resolved path removes every
outbox entry whose payload.localId equals the item's localId (deletion is
by domain localId, not by the entry's own id); entries already in the
current pass's snapshot may nevertheless still be processed and sent. -/
theorem collateral_removal_by_localId (env : SyncEnv) (db : DbState)
    (item : OutboxItem) (lid : String)
    (hlid : item.payload.localId = some lid)
    (hok : remoteOkAt env db item) :
    (processItem env db item).2.2 = true ∧
    ∀ it ∈ (processItem env db item).1.outbox, it.payload.localId ≠ some lid := by
  cases hact : item.action
  case createProject =>
    simp only [remoteOkAt, hact] at hok
    obtain ⟨v, hv⟩ := hok
    have hpi : processItem env db item =
        (removeOutboxByLocalId (markIdeaSynced db (some lid) v env.now) (some lid),
         [RemoteCall.createProject item.payload.content], true) := by
      simp [processItem, hact, hv, hlid]
    rw [hpi]
    exact ⟨rfl, mem_removeOutboxByLocalId _ lid⟩
  case createFeature =>
    simp only [remoteOkAt, hact] at hok
    obtain ⟨v, hv⟩ := hok
    have hpi : processItem env db item =
        (removeOutboxByLocalId (markIdeaSynced db (some lid) v env.now) (some lid),
         [RemoteCall.createFeature item.payload.content
           (resolveParentServerId db item.payload) (item.payload.status.getD "INBOX")],
         true) := by
      simp [processItem, hact, hv, hlid]
    rw [hpi]
    exact ⟨rfl, mem_removeOutboxByLocalId _ lid⟩
  case updateStatus =>
    simp only [remoteOkAt, hact] at hok
    obtain ⟨s, hsv, v, hv⟩ := hok
    have hpi : processItem env db item =
        (removeOutboxByLocalId db (some lid),
         [RemoteCall.updateStatus s item.payload.status], true) := by
      simp [processItem, hact, hsv, hv, hlid]
    rw [hpi]
    exact ⟨rfl, mem_removeOutboxByLocalId _ lid⟩
  case archiveIdea =>
    simp only [remoteOkAt, hact] at hok
    obtain ⟨s, hsv, v, hv⟩ := hok
    have hpi : processItem env db item =
        (removeOutboxByLocalId db (some lid), [RemoteCall.archiveIdea s], true) := by
      simp [processItem, hact, hsv, hv, hlid]
    rw [hpi]
    exact ⟨rfl, mem_removeOutboxByLocalId _ lid⟩
  case deleteIdea =>
    simp only [remoteOkAt, hact] at hok
    obtain ⟨s, hsv, v, hv⟩ := hok
    have hpi : processItem env db item =
        (removeOutboxByLocalId db (some lid), [RemoteCall.deleteIdea s], true) := by
      simp [processItem, hact, hsv, hv, hlid]
    rw [hpi]
    exact ⟨rfl, mem_removeOutboxByLocalId _ lid⟩
  case updateIdea =>
    simp only [remoteOkAt, hact] at hok

/-- C9 amended witness: the create for "A" succeeds and no entry for "A"
survives it. -/
theorem collateral_removal_by_localId_witness :
    (processItem remoteOkEnv dbC9 itemCreateA).2.2 = true :=
  (collateral_removal_by_localId remoteOkEnv dbC9 itemCreateA "A" rfl ⟨"srv_1", rfl⟩).1

/-- C10 counterexample: an `updateIdea` entry fails its pass (unhandled),
but a later create for the same localId succeeds and collaterally removes
it via `removeOutboxByLocalId`, so the engine does remove it: after the
pass the outbox is empty. -/
theorem updateIdea_removed_collaterally :
    itemUpdIdea ∈ stC10.db.outbox ∧
    (processItem remoteOkEnv stC10.db itemUpdIdea).2.2 = false ∧
    (flushOutbox remoteOkEnv stC10).1.db.outbox = [] :=
  ⟨by decide, by decide, by decide⟩

/-- C10 amended: an outbox item with an unhandled action (`updateIdea`) is
processed to `false` with no remote call, no attempt increment and no
removal by its own processing — so it can never reach the abandonment
ceiling — and a pass containing it (engine up throughout) is marked failed
and schedules a backoff retry; it can leave the queue only through another
item's collateral removal by the same localId (or teardown), otherwise it
retries forever. -/
theorem updateIdea_retries_forever (env : SyncEnv) (st : EngineState)
    (pre post : List OutboxItem) (u : OutboxItem)
    (hu : u.action = OutboxAction.updateIdea)
    (hup : alwaysUp env) (hs : st.isSyncing = false)
    (hitems : getOutboxItems st.db = pre ++ u :: post) :
    (∀ db2 : DbState, processItem env db2 u = (db2, [], false)) ∧
    (drainResult env st.db).anyFailed = true ∧
    (flushOutbox env st).1.currentRetryIndex = st.currentRetryIndex + 1 ∧
    (flushOutbox env st).1.pendingRetries.getLast?.map Prod.snd
      = some (RETRY_DELAYS.getD (min st.currentRetryIndex (RETRY_DELAYS.length - 1)) 0) := by
  have hproc : ∀ db2 : DbState, processItem env db2 u = (db2, [], false) := by
    intro db2
    simp [processItem, hu]
  have hfail : (drainResult env st.db).anyFailed = true := by
    unfold drainResult
    rw [hitems, drainLoop_append_up env hup, drainLoop_cons_up env hup, hproc]
    simp only [Bool.not_false, Bool.or_true]
    exact drainLoop_anyFailed_true env post _ _ _
  have hne : getOutboxItems st.db ≠ [] := by
    rw [hitems]
    simp
  have hsched := flushOutbox_failed_sched env st (hup 0).1 (hup 0).2 hs hne hfail
    ((hup (drainResult env st.db).obs).2) ((hup (drainResult env st.db).obs).1)
  refine ⟨hproc, hfail, ?_, ?_⟩
  · rw [hsched]
  · rw [hsched]
    simp [List.getLast?_concat]

/-- C10 amended witness: the concrete pass over `updateIdea` then a create
for the same record is marked failed and schedules the 2000 ms retry. -/
theorem updateIdea_retries_forever_witness :
    (drainResult remoteOkEnv stC10.db).anyFailed = true ∧
    (flushOutbox remoteOkEnv stC10).1.currentRetryIndex = stC10.currentRetryIndex + 1 ∧
    (flushOutbox remoteOkEnv stC10).1.pendingRetries.getLast?.map Prod.snd
      = some (RETRY_DELAYS.getD (min stC10.currentRetryIndex (RETRY_DELAYS.length - 1)) 0) :=
  (updateIdea_retries_forever remoteOkEnv stC10 [] [itemCreateA2] itemUpdIdea rfl
    (fun _ => ⟨rfl, rfl⟩) rfl (by decide)).2

end SparkKeep
